import Mathlib

/-!
Shallow embedding of the core logic of the `web3-retro` repository
(`src/eth_async/`): the text-signature-to-ABI parser (`contracts.py`),
the transaction-parameter completion (`transactions.py`), the
`TokenAmount` value object and `CommonValues` constants (`models.py`),
and `Tx.__init__` (`transactions.py`).

Python strings are modelled as `List Char` internally (wrapped in
`String` at the interfaces); Python `int`/`float`/`Decimal` arithmetic
is modelled over `ℤ`/`ℚ` (every concrete value appearing in the claims
is exactly representable in binary floating point, so the rational
model agrees with the float evaluation there); Python dictionaries are
modelled as insertion-ordered association lists, with assignment
replacing the value in place for an existing key and appending for a
new key, exactly as CPython dicts behave.
-/

namespace EthAsync

/-! ### String helpers (Python `str` operations used by the parser) -/

/-- Python `text.split(c, 1)` restricted to the first occurrence: returns
`some (before, after)` split at the first occurrence of `c`, or `none`
when `c` does not occur. -/
def splitAtFirstChar (c : Char) : List Char → Option (List Char × List Char)
  | [] => none
  | x :: rest =>
    if x = c then some ([], rest)
    else (splitAtFirstChar c rest).map (fun p => (x :: p.1, p.2))

/-- Python `s.split(c)` on a single-character separator: `"".split(c) = ['']`,
and every separator occurrence opens a new group. -/
def splitOnChar (c : Char) : List Char → List (List Char)
  | [] => [[]]
  | x :: rest =>
    if x = c then [] :: splitOnChar c rest
    else
      match splitOnChar c rest with
      | [] => [[x]]
      | g :: gs => (x :: g) :: gs

/-- Python `s.replace(pat, repl)` for a non-empty pattern: replace all
non-overlapping occurrences, scanning left to right.  The fuel argument
bounds the scan; `fuel = length + 1` is always enough because each step
consumes at least one character. -/
def replaceSubAux (pat repl : List Char) : Nat → List Char → List Char
  | 0, l => l
  | _ + 1, [] => []
  | fuel + 1, c :: rest =>
    if pat ≠ [] ∧ pat.isPrefixOf (c :: rest) then
      repl ++ replaceSubAux pat repl fuel ((c :: rest).drop pat.length)
    else
      c :: replaceSubAux pat repl fuel rest

def replaceSub (pat repl l : List Char) : List Char :=
  replaceSubAux pat repl (l.length + 1) l

/-! ### `utils/strings.text_between`

The file `src/eth_async/utils/strings.py` is not part of the sources;
only its caller `Contracts._extract_tuples` is. -/

/-- Modelled from the spec: step 2 of the parser algorithm "find the
parenthesized group, extract its comma-separated member list", realised
by `text_between(text, begin='(', end=')')`: the substring of `text`
strictly between the first occurrence of `begin` and the first
occurrence of `end` after it; a missing `begin` degrades to the start
of the string and a missing `end` to its end.  Only the single-character
delimiters `'('` and `')'` used by the parser are modelled. -/
def textBetween (text : String) (b e : Char) : String :=
  let afterB :=
    match splitAtFirstChar b text.toList with
    | none => text.toList
    | some p => p.2
  match splitAtFirstChar e afterB with
  | none => String.mk afterB
  | some p => String.mk p.1

/-! ### Signature parser (`Contracts._parse_signature` and friends) -/

/-- `Contracts._split_signature`: `text_signature.split('(', 1)`, the
second component defaulting to the empty string. -/
def splitSignature (textSignature : String) : String × String :=
  match splitAtFirstChar '(' textSignature.toList with
  | none => (textSignature, "")
  | some p => (String.mk p.1, String.mk p.2)

/-- One iteration body plus loop of `Contracts._extract_tuples`:
while `'(' in sign`, extract `text_between(sign[:-1], '(', ')')`,
record its comma-split member list, and replace `'(' + tuple_ + ')'`
by the literal `tuple` in `sign`.  The Python loop does not terminate
on certain malformed inputs (when the replacement removes no `'('`);
the fuel bounds the iterations and suffices whenever each iteration
removes at least one character, as it does on all parenthesized input. -/
def extractTuplesAux : Nat → List Char → List (List String) →
    List Char × List (List String)
  | 0, sign, acc => (sign, acc)
  | fuel + 1, sign, acc =>
    if sign.contains '(' then
      let t := (textBetween (String.mk sign.dropLast) '(' ')').toList
      let acc2 := acc ++ [(splitOnChar ',' t).map String.mk]
      let sign2 := replaceSub ('(' :: (t ++ [')'])) "tuple".toList sign
      extractTuplesAux fuel sign2 acc2
    else (sign, acc)

/-- `Contracts._extract_tuples`. -/
def extractTuples (sign : String) : String × List (List String) :=
  let r := extractTuplesAux (sign.length + 1) sign.toList []
  (String.mk r.1, r.2)

/-- `Contracts._get_inputs`: `sign.split(',') if sign else []`. -/
def getInputs (sign : String) : List String :=
  if sign = "" then [] else (splitOnChar ',' sign.toList).map String.mk

/-- An entry of the `components` list of an ABI input: `{'type': t}`. -/
structure AbiComponent where
  ty : String
deriving DecidableEq, Repr

/-- An entry of the `inputs` list of the ABI function dictionary:
`{'type': t}`, optionally carrying a `components` key. -/
structure AbiInput where
  ty : String
  components : Option (List AbiComponent)
deriving DecidableEq, Repr

/-- The function dictionary built by `Contracts._build_function_abi`;
`outputs` holds the `'type'` fields of the output entries. -/
structure AbiFunction where
  type_ : String
  name : String
  inputs : List AbiInput
  outputs : List String
deriving DecidableEq, Repr

/-- The input-building loop of `Contracts._build_function_abi`: the
counter `i` indexes the recorded tuple-component lists and advances
only on a token equal to the literal `tuple`.  Python raises
`IndexError` when `i` runs past the recorded lists; that unreachable
branch is modelled by the empty default of `getD`. -/
def buildInputs : List String → List (List String) → Nat → List AbiInput
  | [], _, _ => []
  | ty :: rest, tuples, i =>
    if ty = "tuple" then
      { ty := ty, components := some ((tuples.getD i []).map AbiComponent.mk) }
        :: buildInputs rest tuples (i + 1)
    else
      { ty := ty, components := none } :: buildInputs rest tuples i

/-- `Contracts._build_function_abi`. -/
def buildFunctionAbi (name : String) (inputs : List String)
    (tuples : List (List String)) : AbiFunction :=
  { type_ := "function", name := name
    inputs := buildInputs inputs tuples 0
    outputs := ["uint256"] }

/-- `Contracts._parse_signature`. -/
def parseSignature (textSignature : String) :
    String × List String × List (List String) :=
  let ns := splitSignature textSignature
  let st := extractTuples ns.2
  (ns.1, getInputs st.1, st.2)

/-- `Contracts.parse_function_to_abi`. -/
def parseFunctionToAbi (textSignature : String) : AbiFunction :=
  let r := parseSignature textSignature
  buildFunctionAbi r.1 r.2.1 r.2.2

/-! ### `models.TokenAmount` and `models.CommonValues` -/

/-- Python `int(q)` on a `Decimal`/number: truncation toward zero. -/
def ratTrunc (q : ℚ) : ℤ :=
  if q < 0 then ⌈q⌉ else ⌊q⌋

/-- `models.TokenAmount`: `_amount` is the `Decimal` conversion of the
constructor argument, modelled over `ℚ`. -/
structure TokenAmount where
  amount : ℚ
  decimals : ℕ := 18
  wei : Bool := false
deriving DecidableEq, Repr

/-- The `TokenAmount.Wei` property:
`int(self._amount * 10 ** self.decimals) if not self.wei else int(self._amount)`. -/
def TokenAmount.toWei (t : TokenAmount) : ℤ :=
  if t.wei then ratTrunc t.amount else ratTrunc (t.amount * 10 ^ t.decimals)

/-- The `TokenAmount.Ether` property:
`self._amount / 10 ** self.decimals if self.wei else self._amount`. -/
def TokenAmount.toEther (t : TokenAmount) : ℚ :=
  if t.wei then t.amount / 10 ^ t.decimals else t.amount

/-- `models.CommonValues.InfinityInt`: the integer value of the 64-digit
hex string `'0xffff…ffff'`. -/
def CommonValues.InfinityInt : ℤ :=
  ((List.replicate 64 (15 : ℤ)).foldl (fun a d => 16 * a + d) 0)

/-! ### Transaction parameters as a Python dict -/

/-- A transaction-parameter value: an integer or a string. -/
inductive PValue where
  | vInt (i : ℤ)
  | vStr (s : String)
deriving DecidableEq, Repr

/-- A Python dict under its insertion order. -/
abbrev Params := List (String × PValue)

/-- Python dict assignment `d[k] = v`: replace in place when the key
exists, append otherwise. -/
def setKey : Params → String → PValue → Params
  | [], k, v => [(k, v)]
  | (k', v') :: rest, k, v =>
    if k' = k then (k, v) :: rest else (k', v') :: setKey rest k v

/-- Python dict lookup `d.get(k)` as an `Option`. -/
def getKey? : Params → String → Option PValue
  | [], _ => none
  | (k', v) :: rest, k => if k' = k then some v else getKey? rest k

/-! ### Transaction-parameter completion (`Transaction.auto_add_params`) -/

/-- The fixed remote state visible during one `auto_add_params` run:
network metadata, the client account, and the node answers
(`get_transaction_count`, `gas_price`, `max_priority_fee`, the latest
block's `baseFeePerGas`, `estimate_gas`).  All quotes are the integer
Wei amounts the node returns. -/
structure Env where
  chainId : ℤ
  txType : ℤ
  account : String
  nonce : ℤ
  gasPrice : ℤ
  maxPriorityFee : ℤ
  baseFee : ℤ
  estimateGas : Params → ℤ

/-- `Transaction.get_max_fee_per_gas`:
`(max_priority_fee * 2) + (base_fee * 1.05)` fed through
`TokenAmount(amount, wei=True).Wei`; the float literal `1.05` is
modelled as the rational `105/100`.  The source also raises
`GasValueObtaining` when either quote is `None`; in this model the node
answers are always integers, as they are on a live node, so that branch
has no counterpart. -/
def getMaxFeePerGas (env : Env) : ℤ :=
  (TokenAmount.mk ((env.maxPriorityFee * 2 : ℤ) + (env.baseFee : ℚ) * (105 / 100))
    18 true).toWei

/-- `Transaction.auto_add_params`: `chainId` falls back to the network
chain id only when absent (`tx_params.get('chainId', …)`); `nonce`,
`from`, the fee fields of the network's fee model, and `gas` are
assigned unconditionally; `gas` is estimated last, on the already
updated parameter set. -/
def autoAddParams (env : Env) (txParams : Params) : Params :=
  let p1 := setKey txParams "chainId"
    ((getKey? txParams "chainId").getD (.vInt env.chainId))
  let p2 := setKey p1 "nonce" (.vInt env.nonce)
  let p3 := setKey p2 "from" (.vStr env.account)
  let p4 :=
    if env.txType = 2 then
      setKey (setKey p3 "maxPriorityFeePerGas" (.vInt env.maxPriorityFee))
        "maxFeePerGas" (.vInt (getMaxFeePerGas env))
    else
      setKey p3 "gasPrice" (.vInt env.gasPrice)
  setKey p4 "gas" (.vInt (env.estimateGas p4))

/-! ### `Transaction._determine_approve_amount` -/

/-- A `types.Amount` argument: a Python number (`int`/`float`, modelled
over `ℚ`) or a `TokenAmount` instance. -/
inductive AmountArg where
  | num (q : ℚ)
  | tok (t : TokenAmount)
deriving DecidableEq, Repr

/-- `Transaction._determine_approve_amount`: `if not amount` selects
`CommonValues.InfinityInt`; a `None` argument and the numbers `0`/`0.0`
are the falsy cases (a `TokenAmount` instance defines no `__bool__` or
`__len__`, hence is always truthy).  A truthy number is scaled by
`TokenAmount(amount, decimals).Wei` with the token contract's decimals;
a `TokenAmount` argument contributes its own `.Wei`. -/
def determineApproveAmount (amount : Option AmountArg) (decimals : ℕ) : ℤ :=
  match amount with
  | none => CommonValues.InfinityInt
  | some (.num q) =>
    if q = 0 then CommonValues.InfinityInt
    else (TokenAmount.mk q decimals false).toWei
  | some (.tok t) => t.toWei

/-! ### `Tx.__init__` -/

/-- The `tx_hash` constructor argument: a hex string or a byte sequence
(`_Hash32`). -/
inductive HashArg where
  | hstr (s : String)
  | hbytes (b : List ℕ)
deriving DecidableEq, Repr

/-- Python falsiness of the optional `tx_hash` argument: `None`, the
empty string and the empty byte sequence are falsy. -/
def hashFalsy : Option HashArg → Bool
  | none => true
  | some (.hstr s) => s.isEmpty
  | some (.hbytes b) => b.isEmpty

/-- Python falsiness of the optional `params` argument: `None` and the
empty dict are falsy. -/
def paramsFalsy : Option Params → Bool
  | none => true
  | some p => p.isEmpty

/-- The numeric value of one hex digit (`0` on a non-hex character;
`HexBytes` would raise there, a branch no claim exercises). -/
def hexVal (c : Char) : ℕ :=
  if '0' ≤ c ∧ c ≤ '9' then c.toNat - '0'.toNat
  else if 'a' ≤ c ∧ c ≤ 'f' then c.toNat - 'a'.toNat + 10
  else if 'A' ≤ c ∧ c ≤ 'F' then c.toNat - 'A'.toNat + 10
  else 0

/-- Hex-decode a character list two digits at a time. -/
def hexPairs : List Char → List ℕ
  | a :: b :: rest => (16 * hexVal a + hexVal b) :: hexPairs rest
  | [a] => [hexVal a]
  | [] => []

/-- `HexBytes(s)` on a string: strip a leading `0x` and decode the hex
digits to bytes. -/
def hexDecode (s : String) : List ℕ :=
  match s.toList with
  | '0' :: 'x' :: rest => hexPairs rest
  | l => hexPairs l

/-- The hash stored on a `Tx`: `HexBytes(tx_hash)` when the argument is
a string, the argument itself otherwise. -/
inductive StoredHash where
  | wrapped (b : List ℕ)
  | raw (h : HashArg)
deriving DecidableEq, Repr

/-- The attribute state `Tx.__init__` leaves behind. -/
structure TxState where
  hash : Option StoredHash
  params : Option Params
  receipt : Option Unit
  functionIdentifier : Option Unit
  inputData : Option Unit
deriving DecidableEq

/-- The hash attribute assignment of `Tx.__init__`. -/
def storeHash : Option HashArg → Option StoredHash
  | none => none
  | some (.hstr s) => some (.wrapped (hexDecode s))
  | some (.hbytes b) => some (.raw (.hbytes b))

/-- `Tx.__init__`: raise `TransactionException` when both arguments are
falsy, otherwise record the (possibly wrapped) hash and the parameters
and initialise the remaining attributes to `None`. -/
def txInit (txHash : Option HashArg) (params : Option Params) :
    Except String TxState :=
  if hashFalsy txHash && paramsFalsy params then
    .error "TransactionException"
  else
    .ok { hash := storeHash txHash, params := params
          receipt := none, functionIdentifier := none, inputData := none }

/-! ### Dictionary lemmas -/

lemma getKey?_setKey_self (p : Params) (k : String) (v : PValue) :
    getKey? (setKey p k v) k = some v := by
  induction p with
  | nil => simp [setKey, getKey?]
  | cons hd tl ih =>
    by_cases h : hd.1 = k <;> simp [setKey, getKey?, h, ih]

lemma getKey?_setKey_ne (p : Params) {k k' : String} (hne : k ≠ k')
    (v : PValue) : getKey? (setKey p k' v) k = getKey? p k := by
  induction p with
  | nil => simp [setKey, getKey?, Ne.symm hne]
  | cons hd tl ih =>
    by_cases h : hd.1 = k' <;>
      simp [setKey, getKey?, h, ih, Ne.symm hne]

set_option maxRecDepth 8000 in
/-- The infinity constant of `models.CommonValues` is `2 ^ 256 - 1`. -/
lemma infinityInt_eq : CommonValues.InfinityInt = 2 ^ 256 - 1 := by decide

/-! ### Claims -/

/-- C1: the source parser applied to `"approve(address,uint256)"` keeps the
trailing closing parenthesis of the signature in the last input type:
the second input's type is `"uint256)"`, not `"uint256"`, so the
descriptor of the claim is not produced. -/
theorem claim_c1 :
    parseFunctionToAbi "approve(address,uint256)" =
      ⟨"function", "approve",
        [⟨"address", none⟩, ⟨"uint256)", none⟩], ["uint256"]⟩ ∧
    parseFunctionToAbi "approve(address,uint256)" ≠
      ⟨"function", "approve",
        [⟨"address", none⟩, ⟨"uint256", none⟩], ["uint256"]⟩ := by
  constructor <;> decide

/-- C5: the source parser applied to `"bar((address,uint256))"` returns one
input of type `"tuple)"` with no components attached (the replacement of
the parenthesized group turns the remainder into `"tuple)"`, which is not
the literal `tuple`), not a `"tuple"` input with the extracted
component list. -/
theorem claim_c5 :
    parseFunctionToAbi "bar((address,uint256))" =
      ⟨"function", "bar", [⟨"tuple)", none⟩], ["uint256"]⟩ ∧
    parseFunctionToAbi "bar((address,uint256))" ≠
      ⟨"function", "bar",
        [⟨"tuple", some [⟨"address"⟩, ⟨"uint256"⟩]⟩], ["uint256"]⟩ := by
  constructor <;> decide

/-- C6: the source parser applied to the zero-argument signature `"foo()"`
returns the single input `{type: ")"}` rather than an empty input list:
after splitting on the first opening parenthesis the remainder is `")"`,
which is non-empty and survives to the input list. -/
theorem claim_c6 :
    parseFunctionToAbi "foo()" =
      ⟨"function", "foo", [⟨")", none⟩], ["uint256"]⟩ ∧
    (parseFunctionToAbi "foo()").inputs ≠ [] := by
  constructor <;> decide

/-- C2: parameter completion does not preserve a caller-supplied nonce.
With the network reporting transaction count 7, a parameter set carrying
nonce 5 comes back with nonce 7: the completion assigns the
network-fetched nonce unconditionally (only a supplied chainId is in
fact preserved). -/
theorem claim_c2 :
    getKey? [("nonce", .vInt 5), ("to", .vStr "0xB")] "nonce"
      = some (.vInt 5) ∧
    getKey? (autoAddParams ⟨1, 0, "0xACC", 7, 3, 2, 10, fun _ => 21000⟩
        [("nonce", .vInt 5), ("to", .vStr "0xB")]) "nonce"
      = some (.vInt 7) := by
  constructor <;> rfl

/-- C3: completion is not idempotent on an already-fully-populated
parameter set: a legacy-network set carrying every required field
(chainId, nonce, from, gasPrice, gas) is still rewritten whenever the
network-derived nonce differs from the stored one. -/
theorem claim_c3 :
    autoAddParams ⟨1, 0, "0xACC", 7, 3, 2, 10, fun _ => 21000⟩
        [("chainId", .vInt 1), ("nonce", .vInt 5), ("from", .vStr "0xACC"),
         ("gasPrice", .vInt 3), ("gas", .vInt 21000), ("to", .vStr "0xB"),
         ("data", .vStr "0x"), ("value", .vInt 0)] ≠
      [("chainId", .vInt 1), ("nonce", .vInt 5), ("from", .vStr "0xACC"),
       ("gasPrice", .vInt 3), ("gas", .vInt 21000), ("to", .vStr "0xB"),
       ("data", .vStr "0x"), ("value", .vInt 0)] ∧
    getKey? (autoAddParams ⟨1, 0, "0xACC", 7, 3, 2, 10, fun _ => 21000⟩
        [("chainId", .vInt 1), ("nonce", .vInt 5), ("from", .vStr "0xACC"),
         ("gasPrice", .vInt 3), ("gas", .vInt 21000), ("to", .vStr "0xB"),
         ("data", .vStr "0x"), ("value", .vInt 0)]) "nonce"
      = some (.vInt 7) := by
  constructor
  · decide
  · rfl

/-- C4: under the eip1559 fee model (tx_type 2), completion sets
maxPriorityFeePerGas to the network priority-fee quote and maxFeePerGas
to the truncation of 2 times the priority fee plus 1.05 times the
current base fee; at priority fee 2 and base fee 10 the latter is 14
(truncated from 14.5). -/
theorem claim_c4 (env : Env) (p : Params) (h2 : env.txType = 2) :
    getKey? (autoAddParams env p) "maxPriorityFeePerGas"
      = some (.vInt env.maxPriorityFee) ∧
    getKey? (autoAddParams env p) "maxFeePerGas"
      = some (.vInt (ratTrunc
          ((env.maxPriorityFee * 2 : ℤ) + (env.baseFee : ℚ) * (105 / 100)))) ∧
    (env.maxPriorityFee = 2 → env.baseFee = 10 →
      getKey? (autoAddParams env p) "maxFeePerGas" = some (.vInt 14)) := by
  have hfee : getMaxFeePerGas env = ratTrunc
      ((env.maxPriorityFee * 2 : ℤ) + (env.baseFee : ℚ) * (105 / 100)) := rfl
  refine ⟨?_, ?_, ?_⟩
  · simp only [autoAddParams, h2, if_pos]
    rw [getKey?_setKey_ne _ (by decide), getKey?_setKey_ne _ (by decide),
      getKey?_setKey_self]
  · simp only [autoAddParams, h2, if_pos, hfee]
    rw [getKey?_setKey_ne _ (by decide), getKey?_setKey_self]
  · intro hpf hbf
    simp only [autoAddParams, h2, if_pos, hfee, hpf, hbf]
    rw [getKey?_setKey_ne _ (by decide), getKey?_setKey_self]
    norm_num [ratTrunc]

/-- Witness for C4 at a concrete eip1559 environment with priority-fee
quote 2 and base fee 10: completion yields priority fee 2 and max fee
14. -/
theorem claim_c4_witness :
    getKey? (autoAddParams ⟨1, 2, "0xACC", 7, 3, 2, 10, fun _ => 21000⟩ [])
      "maxPriorityFeePerGas" = some (.vInt 2) ∧
    getKey? (autoAddParams ⟨1, 2, "0xACC", 7, 3, 2, 10, fun _ => 21000⟩ [])
      "maxFeePerGas" = some (.vInt 14) :=
  ⟨(claim_c4 ⟨1, 2, "0xACC", 7, 3, 2, 10, fun _ => 21000⟩ [] rfl).1,
   (claim_c4 ⟨1, 2, "0xACC", 7, 3, 2, 10, fun _ => 21000⟩ [] rfl).2.2 rfl rfl⟩

/-- C7: constructing a Tx fails with TransactionException exactly when
both the tx_hash and the params arguments are falsy; otherwise it
succeeds, storing the params as given and the hash after wrapping
(a string hash is hex-decoded into bytes, any other hash is kept
as supplied). -/
theorem claim_c7 (h : Option HashArg) (p : Option Params) :
    (txInit h p = .error "TransactionException" ↔
      hashFalsy h = true ∧ paramsFalsy p = true) ∧
    (hashFalsy h = false ∨ paramsFalsy p = false →
      txInit h p = .ok ⟨storeHash h, p, none, none, none⟩) ∧
    (∀ s, h = some (.hstr s) →
      storeHash h = some (.wrapped (hexDecode s))) := by
  refine ⟨?_, ?_, ?_⟩
  · unfold txInit
    rcases hh : hashFalsy h <;> rcases hp : paramsFalsy p <;> simp
  · intro hor
    unfold txInit
    rcases hor with hor | hor <;> simp [hor]
  · intro s hs
    subst hs
    rfl

/-- Witness for C7: a non-empty string hash with absent params
constructs successfully and stores the hex-decoded bytes. -/
theorem claim_c7_witness :
    txInit (some (.hstr "0xab")) none =
      .ok ⟨some (.wrapped [171]), none, none, none, none⟩ := by
  have h := (claim_c7 (some (.hstr "0xab")) none).2.1 (Or.inl rfl)
  simpa using h

/-- C8: the token-amount round trip of the spec: human value 3/2 at 18
decimals scales to 1500000000000000000 in smallest-unit form, and the
smallest-unit value 1500000000000000000 at 18 decimals reads back as
exactly 3/2 in human form. -/
theorem claim_c8 :
    (TokenAmount.mk (3 / 2) 18 false).toWei = 1500000000000000000 ∧
    (TokenAmount.mk 1500000000000000000 18 true).toEther = 3 / 2 := by
  constructor
  · norm_num [TokenAmount.toWei, ratTrunc]
  · norm_num [TokenAmount.toEther]

/-- C9: an absent amount argument and the number 0 (the arguments Python
treats as absent or equal to zero) both make the determined approval
amount the infinity constant 2 ^ 256 - 1, never zero, for every token
decimal count. -/
theorem claim_c9 (d : ℕ) :
    determineApproveAmount none d = 2 ^ 256 - 1 ∧
    determineApproveAmount (some (.num 0)) d = 2 ^ 256 - 1 ∧
    determineApproveAmount (some (.num 0)) d ≠ 0 := by
  refine ⟨?_, ?_, ?_⟩ <;>
    simp [determineApproveAmount, infinityInt_eq]

/-- Witness for C9 at 18 token decimals. -/
theorem claim_c9_witness :
    determineApproveAmount none 18 = 2 ^ 256 - 1 ∧
    determineApproveAmount (some (.num 0)) 18 = 2 ^ 256 - 1 :=
  ⟨(claim_c9 18).1, (claim_c9 18).2.1⟩

/-- C10: the completion writes only the keys chainId, nonce, from, gas,
and, depending on the fee model, either the two eip1559 fee keys or
gasPrice; every other entry of the parameter set, in particular to,
data and value, is returned unchanged. -/
theorem claim_c10 (env : Env) (p : Params) (k : String)
    (h1 : k ≠ "chainId") (h2 : k ≠ "nonce") (h3 : k ≠ "from")
    (h4 : k ≠ "gas")
    (h5 : env.txType = 2 → k ≠ "maxPriorityFeePerGas" ∧ k ≠ "maxFeePerGas")
    (h6 : env.txType ≠ 2 → k ≠ "gasPrice") :
    getKey? (autoAddParams env p) k = getKey? p k := by
  unfold autoAddParams
  by_cases ht : env.txType = 2
  · obtain ⟨h5a, h5b⟩ := h5 ht
    simp only [ht, if_pos]
    rw [getKey?_setKey_ne _ h4, getKey?_setKey_ne _ h5b,
      getKey?_setKey_ne _ h5a, getKey?_setKey_ne _ h3,
      getKey?_setKey_ne _ h2, getKey?_setKey_ne _ h1]
  · simp only [ht, if_neg, ite_false]
    rw [getKey?_setKey_ne _ h4, getKey?_setKey_ne _ (h6 ht),
      getKey?_setKey_ne _ h3, getKey?_setKey_ne _ h2,
      getKey?_setKey_ne _ h1]

/-- Witness for C10: on a legacy network the caller-supplied to-address
survives completion untouched. -/
theorem claim_c10_witness :
    getKey? (autoAddParams ⟨1, 0, "0xACC", 7, 3, 2, 10, fun _ => 21000⟩
        [("to", .vStr "0xB")]) "to"
      = getKey? [("to", .vStr "0xB")] "to" :=
  claim_c10 ⟨1, 0, "0xACC", 7, 3, 2, 10, fun _ => 21000⟩ [("to", .vStr "0xB")]
    "to" (by decide) (by decide) (by decide) (by decide)
    (fun h => absurd h (by decide)) (fun _ => by decide)

end EthAsync
